import Mathlib

set_option autoImplicit false

/-!
OAuth code-exchange reverse proxy (`cmd/proxy/main.go`)

A shallow embedding of the program: `main`, `testHandler` and `oauthHandler`,
together with the parts of the Go standard library they call (`net/url` parsing,
`http.NewRequest`, the `http.ResponseWriter` protocol, `bytes.Buffer.ReadFrom`).

Effects are made explicit.  A handler is a function of the package-level variables, of an
environment that answers the outbound call and the write to the caller, and of the inbound
request; it returns how the handler ended (returned or panicked), the state of the response
writer and the list of outbound calls that were executed.
-/

namespace Proxy

/-- A Go string is a sequence of bytes; a byte is represented by the character with the same
code, so ASCII text reads as itself. -/
abbrev GoString := List Char

/-! ## Package `strings` -/

/-- Model of `strings.Cut` for a one-byte separator: the text before the first separator, the
text after it, and whether the separator was found. -/
def cut (sep : Char) : GoString → GoString × GoString × Bool
  | [] => ([], [], false)
  | c :: s =>
    if c = sep then ([], s, true)
    else ((c :: (cut sep s).1), (cut sep s).2.1, (cut sep s).2.2)

/-- Model of `strings.ToLower` on ASCII text. -/
def toLower (s : GoString) : GoString :=
  s.map (fun c => if 'A' ≤ c ∧ c ≤ 'Z' then Char.ofNat (c.toNat + 32) else c)

/-- Model of `strings.LastIndex` for a one-byte separator, `-1` when absent. -/
def lastIndex (sep : Char) (s : GoString) : Int :=
  match (s.reverse.indexOf? sep) with
  | some i => (s.length : Int) - 1 - (i : Int)
  | none => -1

/-! ## Package `net/url` -/

deriving instance DecidableEq for Except

/-- Errors of `net/url` (and of `net/http` request construction). -/
inductive UrlError where
  | invalidControlCharacter
  | missingProtocolScheme
  | firstPathSegmentColon
  | EscapeError (s : GoString)
  | InvalidHostError (s : GoString)
  | invalidPort (s : GoString)
  | invalidSemicolonSeparator
  | invalidMethod (m : GoString)
  | outsideModel
  deriving DecidableEq, Repr

/-- The escaping modes of `net/url`. -/
inductive encoding where
  | encodePath
  | encodePathSegment
  | encodeHost
  | encodeZone
  | encodeUserPassword
  | encodeQueryComponent
  | encodeFragment
  deriving DecidableEq, Repr

open encoding

/-- Model of `stringContainsCTLByte`: some byte is below 0x20 or is 0x7f. -/
def stringContainsCTLByte (s : GoString) : Bool :=
  s.any (fun b => decide (b.toNat < 32) || decide (b.toNat = 127))

/-- Model of `ishex`. -/
def ishex (c : Char) : Bool :=
  (decide ('0' ≤ c) && decide (c ≤ '9')) || (decide ('a' ≤ c) && decide (c ≤ 'f'))
    || (decide ('A' ≤ c) && decide (c ≤ 'F'))

/-- Model of `unhex`. -/
def unhex (c : Char) : Nat :=
  if '0' ≤ c ∧ c ≤ '9' then c.toNat - '0'.toNat
  else if 'a' ≤ c ∧ c ≤ 'f' then c.toNat - 'a'.toNat + 10
  else if 'A' ≤ c ∧ c ≤ 'F' then c.toNat - 'A'.toNat + 10
  else 0

/-- Model of `shouldEscape`. -/
def shouldEscape (c : Char) (mode : encoding) : Bool :=
  if ('a' ≤ c ∧ c ≤ 'z') ∨ ('A' ≤ c ∧ c ≤ 'Z') ∨ ('0' ≤ c ∧ c ≤ '9') then false
  else if (mode = encodeHost ∨ mode = encodeZone) ∧
      c ∈ ['!', '$', '&', Char.ofNat 39, '(', ')', '*', '+', ',', ';', '=', ':', '[', ']',
        '<', '>', Char.ofNat 34] then false
  else if c ∈ ['-', '_', '.', '~'] then false
  else if c ∈ ['$', '&', '+', ',', '/', ':', ';', '=', '?', '@'] ∧ mode ≠ encodeHost
      ∧ mode ≠ encodeZone then
    match mode with
    | encodePath => decide (c = '?')
    | encodePathSegment => decide (c = '/' ∨ c = ';' ∨ c = ',' ∨ c = '?')
    | encodeUserPassword => decide (c = '@' ∨ c = '/' ∨ c = '?' ∨ c = ':')
    | encodeQueryComponent => true
    | _ => false
  else if mode = encodeFragment ∧ c ∈ ['!', '(', ')', '*'] then false
  else true

/-- First loop of `unescape`: checks that every `%` starts a well-formed escape (and, for a
host, that every byte is allowed), counts the escapes and notes whether a `+` has to be
rewritten. -/
def unescapeScan (mode : encoding) : GoString → Nat → Bool → Except UrlError (Nat × Bool)
  | [], n, hasPlus => .ok (n, hasPlus)
  | c :: rest, n, hasPlus =>
    if c = '%' then
      match rest with
      | a :: b :: rest2 =>
        if !ishex a || !ishex b then .error (.EscapeError [c, a, b])
        else if mode = encodeHost ∧ unhex a < 8 ∧ [c, a, b] ≠ ['%', '2', '5'] then
          .error (.EscapeError [c, a, b])
        else if mode = encodeZone ∧ [c, a, b] ≠ ['%', '2', '5']
            ∧ Char.ofNat (unhex a * 16 + unhex b) ≠ ' '
            ∧ shouldEscape (Char.ofNat (unhex a * 16 + unhex b)) encodeHost = true then
          .error (.EscapeError [c, a, b])
        else unescapeScan mode rest2 (n + 1) hasPlus
      | _ => .error (.EscapeError (c :: rest))
    else if c = '+' then unescapeScan mode rest n (decide (mode = encodeQueryComponent))
    else if (mode = encodeHost ∨ mode = encodeZone) ∧ c.toNat < 128
        ∧ shouldEscape c encodeHost = true then
      .error (.InvalidHostError [c])
    else unescapeScan mode rest n hasPlus

/-- Second loop of `unescape`: writes the decoded bytes. -/
def unescapeBuild (mode : encoding) : GoString → GoString
  | [] => []
  | c :: rest =>
    if c = '%' then
      match rest with
      | a :: b :: rest2 => Char.ofNat (unhex a * 16 + unhex b) :: unescapeBuild mode rest2
      | _ => []
    else if c = '+' then
      (if mode = encodeQueryComponent then ' ' else '+') :: unescapeBuild mode rest
    else c :: unescapeBuild mode rest

/-- Model of `unescape`. -/
def unescape (s : GoString) (mode : encoding) : Except UrlError GoString :=
  match unescapeScan mode s 0 false with
  | .error e => .error e
  | .ok (n, hasPlus) => if n = 0 ∧ hasPlus = false then .ok s else .ok (unescapeBuild mode s)

/-- Model of `url.QueryUnescape`. -/
def QueryUnescape (s : GoString) : Except UrlError GoString :=
  unescape s encodeQueryComponent

/-- Model of `url.Values` (`map[string][]string`): keys in order of first insertion. -/
abbrev Values := List (GoString × List GoString)

/-- The slice stored under a key (`v[key]`), empty when the key is absent. -/
def Values.lookup (v : Values) (key : GoString) : List GoString :=
  match v with
  | [] => []
  | (k, vs) :: rest => if k = key then vs else Values.lookup rest key

/-- Model of `Values.Get`: the first value of the key, or the empty string. -/
def Values.Get (v : Values) (key : GoString) : GoString :=
  match v.lookup key with
  | [] => []
  | x :: _ => x

/-- The map update `m[key] = append(m[key], value)`. -/
def Values.add (v : Values) (key value : GoString) : Values :=
  match v with
  | [] => [(key, [value])]
  | (k, vs) :: rest =>
    if k = key then (k, vs ++ [value]) :: rest else (k, vs) :: Values.add rest key value

/-- The loop of `parseQuery`; every iteration on a non-empty query shortens it, so the fuel
`query.length + 1` given by `ParseQuery` is never used up. -/
def parseQueryLoop : Nat → Values → GoString → Option UrlError → Values × Option UrlError
  | 0, m, _, err => (m, err)
  | fuel + 1, m, query, err =>
    if query = [] then (m, err)
    else
      let key := (cut '&' query).1
      let query := (cut '&' query).2.1
      if ';' ∈ key then parseQueryLoop fuel m query (some .invalidSemicolonSeparator)
      else if key = [] then parseQueryLoop fuel m query err
      else
        let value := (cut '=' key).2.1
        let key := (cut '=' key).1
        match QueryUnescape key with
        | .error err1 => parseQueryLoop fuel m query (if err = none then some err1 else err)
        | .ok key =>
          match QueryUnescape value with
          | .error err1 => parseQueryLoop fuel m query (if err = none then some err1 else err)
          | .ok value => parseQueryLoop fuel (m.add key value) query err

/-- Model of `url.ParseQuery`: the values parsed and the first error met, if any. -/
def ParseQuery (query : GoString) : Values × Option UrlError :=
  parseQueryLoop (query.length + 1) [] query none

/-- Model of `url.URL`, with the fields the program depends on (`OpaqueText` is the field
`Opaque`). -/
structure URL where
  Scheme : GoString := []
  OpaqueText : GoString := []
  Host : GoString := []
  Path : GoString := []
  ForceQuery : Bool := false
  RawQuery : GoString := []
  Fragment : GoString := []
  deriving DecidableEq, Repr

/-- Model of `URL.Query`: `ParseQuery` on the raw query, the error dropped. -/
def URL.Query (u : URL) : Values :=
  (ParseQuery u.RawQuery).1

/-- The loop of `getScheme`; `seen` holds the bytes already accepted, in reverse. -/
def getSchemeLoop (rawURL : GoString) : GoString → GoString →
    Except UrlError (GoString × GoString)
  | _, [] => .ok ([], rawURL)
  | seen, c :: rest =>
    if ('a' ≤ c ∧ c ≤ 'z') ∨ ('A' ≤ c ∧ c ≤ 'Z') then getSchemeLoop rawURL (c :: seen) rest
    else if ('0' ≤ c ∧ c ≤ '9') ∨ c = '+' ∨ c = '-' ∨ c = '.' then
      if seen = [] then .ok ([], rawURL) else getSchemeLoop rawURL (c :: seen) rest
    else if c = ':' then
      if seen = [] then .error .missingProtocolScheme else .ok (seen.reverse, rest)
    else .ok ([], rawURL)

/-- Model of `getScheme`: the scheme and the text after its colon. -/
def getScheme (rawURL : GoString) : Except UrlError (GoString × GoString) :=
  getSchemeLoop rawURL [] rawURL

/-- Model of `validOptionalPort`. -/
def validOptionalPort (port : GoString) : Bool :=
  match port with
  | [] => true
  | c :: digits => decide (c = ':') && digits.all (fun b => decide ('0' ≤ b) && decide (b ≤ '9'))

/-- Model of `parseHost` for a host that is not an IP literal. -/
def parseHost (host : GoString) : Except UrlError GoString :=
  if host.head? = some '[' then .error .outsideModel
  else if 0 ≤ lastIndex ':' host ∧
      validOptionalPort (host.drop (lastIndex ':' host).toNat) = false then
    .error (.invalidPort (host.drop (lastIndex ':' host).toNat))
  else unescape host encodeHost

/-- Model of `parseAuthority` for an authority without userinfo.  Authorities with userinfo
or an IP literal are outside this model; the only authority this program parses is the
literal `github.com`. -/
def parseAuthority (authority : GoString) : Except UrlError GoString :=
  if lastIndex '@' authority < 0 then parseHost authority else .error .outsideModel

/-- Model of `parse` with `viaRequest = false`. -/
def parse (rawURL : GoString) : Except UrlError URL :=
  if stringContainsCTLByte rawURL then .error .invalidControlCharacter
  else if rawURL = ['*'] then .ok { Path := ['*'] }
  else
    match getScheme rawURL with
    | .error e => .error e
    | .ok (scheme, rest0) =>
      let scheme := toLower scheme
      let force : Bool := decide (rest0.getLast? = some '?') && decide (rest0.count '?' = 1)
      let rest := if force then rest0.dropLast else (cut '?' rest0).1
      let rawQuery := if force then [] else (cut '?' rest0).2.1
      if rest.head? ≠ some '/' ∧ scheme ≠ [] then
        .ok { Scheme := scheme, ForceQuery := force, RawQuery := rawQuery, OpaqueText := rest }
      else if rest.head? ≠ some '/' ∧ ':' ∈ (cut '/' rest).1 then
        .error .firstPathSegmentColon
      else if (scheme ≠ [] ∨ rest.take 3 ≠ ['/', '/', '/']) ∧ rest.take 2 = ['/', '/'] then
        let authority := (cut '/' (rest.drop 2)).1
        let rest := if (cut '/' (rest.drop 2)).2.2 then '/' :: (cut '/' (rest.drop 2)).2.1 else []
        match parseAuthority authority with
        | .error e => .error e
        | .ok host =>
          match unescape rest encodePath with
          | .error e => .error e
          | .ok path =>
            .ok { Scheme := scheme, ForceQuery := force, RawQuery := rawQuery, Host := host,
                  Path := path }
      else
        match unescape rest encodePath with
        | .error e => .error e
        | .ok path =>
          .ok { Scheme := scheme, ForceQuery := force, RawQuery := rawQuery, Path := path }

/-- Model of `url.Parse`: the fragment is cut off at the first `#`, the rest goes through
`parse`, and the fragment is unescaped. -/
def Parse (rawURL : GoString) : Except UrlError URL :=
  match parse (cut '#' rawURL).1 with
  | .error e => .error e
  | .ok url =>
    if (cut '#' rawURL).2.1 = [] then .ok url
    else
      match unescape (cut '#' rawURL).2.1 encodeFragment with
      | .error e => .error e
      | .ok frag => .ok { url with Fragment := frag }

/-! ## Package `fmt` -/

/-- Model of `fmt.Sprintf` for a format whose only verbs are `%s`, with string arguments. -/
def Sprintf : GoString → List GoString → GoString
  | [], _ => []
  | [c], _ => [c]
  | c :: d :: rest, args =>
    if c = '%' ∧ d = 's' then
      match args with
      | a :: args2 => a ++ Sprintf rest args2
      | [] => c :: Sprintf (d :: rest) args
    else c :: Sprintf (d :: rest) args

/-! ## Package `net/http` -/

/-- Model of `http.Header`. -/
abbrev Header := List (GoString × List GoString)

/-- Model of `Header.Set` for a key that is already in canonical form (as `Accept` is): the
values of the key are replaced by the single value. -/
def headerSet (h : Header) (key value : GoString) : Header :=
  match h with
  | [] => [(key, [value])]
  | (k, vs) :: rest =>
    if k = key then (k, [value]) :: rest else (k, vs) :: headerSet rest key value

/-- Model of `http.Request`, with the fields the program depends on; `Body = none` is the nil
body. -/
structure Request where
  Method : GoString
  URL : URL
  Header : Header := []
  Body : Option GoString := none
  Host : GoString := []
  deriving DecidableEq, Repr

/-- The bytes allowed in an HTTP token (`httpguts.IsTokenRune`). -/
def isTokenRune (c : Char) : Bool :=
  (decide ('a' ≤ c) && decide (c ≤ 'z')) || (decide ('A' ≤ c) && decide (c ≤ 'Z'))
    || (decide ('0' ≤ c) && decide (c ≤ '9'))
    || decide (c ∈ ['!', '#', '$', '%', '&', Char.ofNat 39, '*', '+', '-', '.', '^', '_',
        Char.ofNat 96, '|', '~'])

/-- Model of `validMethod`. -/
def validMethod (method : GoString) : Bool :=
  decide (0 < method.length) && method.all isTokenRune

/-- Model of `removeEmptyPort`: a trailing colon without a port is dropped. -/
def removeEmptyPort (host : GoString) : GoString :=
  if lastIndex ':' host > lastIndex ']' host ∧ host.getLast? = some ':' then host.dropLast
  else host

/-- Model of `http.NewRequest`: the pair it returns is `(nil, err)` or `(req, nil)`. -/
def NewRequest (method url : GoString) (body : Option GoString) :
    Option Request × Option UrlError :=
  let method := if method = [] then "GET".toList else method
  if validMethod method = false then (none, some (.invalidMethod method))
  else
    match Parse url with
    | .error err => (none, some err)
    | .ok u =>
      (some { Method := method, URL := { u with Host := removeEmptyPort u.Host }, Header := [],
              Body := body, Host := removeEmptyPort u.Host }, none)

/-- The constant `http.MethodPost`. -/
def MethodPost : GoString := "POST".toList

/-- The constant `http.StatusOK`. -/
def StatusOK : Int := 200

/-- The constant `http.StatusBadRequest`. -/
def StatusBadRequest : Int := 400

/-- The constant `http.StatusInternalServerError`. -/
def StatusInternalServerError : Int := 500

/-- The body of a provider response as a reader: `data` is what can be read, and `fails` tells
whether reading ends in an error (after `data`) instead of the end of the stream. -/
structure ReadCloser where
  data : GoString
  fails : Bool
  deriving DecidableEq, Repr

/-- Model of `http.Response`. -/
structure Response where
  StatusCode : Int
  Body : ReadCloser
  deriving DecidableEq, Repr

/-- Model of `bytes.Buffer.ReadFrom`: the buffer after reading, and whether an error was
returned; the bytes read before the error stay in the buffer. -/
def ReadFrom (buf : GoString) (r : ReadCloser) : GoString × Bool :=
  (buf ++ r.data, r.fails)

/-- What the connection to the caller does with a `Write`: it takes all the bytes, or it
takes the first `n` and returns an error. -/
inductive WriteOutcome where
  | accepted
  | failedAfter (n : Nat)
  deriving DecidableEq, Repr

/-- State of an `http.ResponseWriter`: whether the status line has been written, the status,
the body bytes that went out and the byte slices passed to `Write`. -/
structure ResponseWriter where
  wroteHeader : Bool := false
  status : Int := 0
  body : GoString := []
  writes : List GoString := []
  deriving DecidableEq, Repr

/-- Model of `ResponseWriter.WriteHeader`: the first call fixes the status, later calls are
ignored. -/
def ResponseWriter.WriteHeader (w : ResponseWriter) (statusCode : Int) : ResponseWriter :=
  if w.wroteHeader then w else { w with wroteHeader := true, status := statusCode }

/-- Model of `ResponseWriter.Write`: an implicit `WriteHeader(200)` when no status has been
written, then the bytes; returns the writer and whether an error was returned. -/
def ResponseWriter.Write (w : ResponseWriter) (o : WriteOutcome) (b : GoString) :
    ResponseWriter × Bool :=
  let w1 := w.WriteHeader StatusOK
  match o with
  | .accepted => ({ w1 with body := w1.body ++ b, writes := w1.writes ++ [b] }, false)
  | .failedAfter n => ({ w1 with body := w1.body ++ b.take n, writes := w1.writes ++ [b] }, true)

/-- The surroundings of one handler call: `Do` models `http.DefaultClient.Do` (`none` is a
transport-level error), `write` is what the caller's connection does with a `Write`. -/
structure Env where
  Do : Request → Option Response
  write : WriteOutcome

/-- How a handler call ended: whether it panicked, the response writer, and the outbound calls
executed, in order. -/
structure Outcome where
  panicked : Bool := false
  w : ResponseWriter
  calls : List Request := []

/-! ## `cmd/proxy/main.go` -/

/-- The package-level variables; both start as the empty string. -/
structure Globals where
  githubClientSecret : GoString := []
  githubClientID : GoString := []
  deriving DecidableEq, Repr

/-- The two handlers registered on the router. -/
inductive Handler where
  | testHandler
  | oauthHandler
  deriving DecidableEq, Repr

/-- The observable steps of `main`. -/
inductive Event where
  | logDebug (msg : String)
  | logError (msg : String)
  | exit (code : Int)
  | newRouter
  | use (middleware : String)
  | handle (method pattern : String) (h : Handler)
  | listenAndServe (addr : String)
  deriving DecidableEq, Repr

/-- A run of `main`: the package-level variables when it stops or blocks in the server, and
the steps taken. -/
structure Run where
  globals : Globals
  events : List Event
  deriving DecidableEq, Repr

/-- Model of `os.Getenv`: the value of the variable, the empty string when unset. -/
def Getenv (environ : String → Option GoString) (key : String) : GoString :=
  (environ key).getD []

/-- Embedding of `main`.  `githubClientSecret := ...` and `githubClientID := ...` declare
variables local to `main`, so the package-level variables `g` are not assigned.
`listenFails` tells whether `http.ListenAndServe` returns (with an error) or serves forever. -/
def main (environ : String → Option GoString) (listenFails : Bool) (g : Globals) : Run :=
  let githubClientSecret := Getenv environ "GITHUB_CLIENT_SECRET"
  if githubClientSecret = [] then
    { globals := g,
      events := [.logDebug "Starting reverse proxy",
        .logError "GITHUB_CLIENT_SECRET is not set", .exit 1] }
  else
    let githubClientID := Getenv environ "GITHUB_CLIENT_ID"
    if githubClientID = [] then
      { globals := g,
        events := [.logDebug "Starting reverse proxy",
          .logError "GITHUB_CLIENT_ID is not set", .exit 1] }
    else
      { globals := g,
        events := [.logDebug "Starting reverse proxy", .newRouter,
            .use "middleware.Recoverer", .use "middleware.Logger", .use "cors.Handler",
            .handle "GET" "/" .testHandler, .handle "POST" "/oauth" .oauthHandler,
            .listenAndServe ":3000"]
          ++ (if listenFails then
                [.logError "error while listening and serving", .exit 1]
              else []) }

/-- Embedding of `testHandler`. -/
def testHandler (env : Env) (_r : Request) : Outcome :=
  let w : ResponseWriter := {}
  { w := (w.Write env.write "Hello world!".toList).1 }

/-- Embedding of `oauthHandler`.  The calls to the logger do not touch the response and are
left out. -/
def oauthHandler (g : Globals) (env : Env) (r : Request) : Outcome :=
  let w : ResponseWriter := {}
  let tokenQueryParam := r.URL.Query.Get "code".toList
  if tokenQueryParam = [] then
    { w := w.WriteHeader StatusBadRequest }
  else
    let url := Sprintf
      "https://github.com/login/oauth/access_token?client_id=%s&client_secret=%s&code=%s".toList
      [g.githubClientID, g.githubClientSecret, tokenQueryParam]
    match NewRequest MethodPost url none with
    | (none, _) =>
      -- `req.Header.Set` on the nil request, before `err` is looked at
      { panicked := true, w := w }
    | (some req0, err) =>
      let req := { req0 with Header := headerSet req0.Header "Accept".toList
                                          "application/json".toList }
      if err ≠ none then
        { w := w.WriteHeader StatusInternalServerError }
      else
        match env.Do req with
        | none => { w := w.WriteHeader StatusInternalServerError, calls := [req] }
        | some resp =>
          if resp.StatusCode ≠ StatusOK then
            { w := w.WriteHeader StatusInternalServerError, calls := [req] }
          else
            let buf := (ReadFrom [] resp.Body).1
            if (ReadFrom [] resp.Body).2 then
              { w := w.WriteHeader StatusInternalServerError, calls := [req] }
            else
              if (w.Write env.write buf).2 then
                { w := (w.Write env.write buf).1.WriteHeader StatusInternalServerError,
                  calls := [req] }
              else
                { w := (w.Write env.write buf).1, calls := [req] }

/-! ## Examples used by the witnesses -/

/-- A value that passes unchanged through the unescaped URL: it has none of the bytes
`&`, `#`, `%`, `+`, `;` and no control byte (below 0x20, or 0x7f). -/
def plainValue (s : GoString) : Prop :=
  ∀ c ∈ s, c ≠ '&' ∧ c ≠ '#' ∧ c ≠ '%' ∧ c ≠ '+' ∧ c ≠ ';' ∧ ¬ (c.toNat < 32 ∨ c.toNat = 127)

/-- An environment that sets (or leaves unset) the two variables `main` reads. -/
def exampleEnviron (secret id : Option GoString) : String → Option GoString :=
  fun key =>
    if key = "GITHUB_CLIENT_SECRET" then secret
    else if key = "GITHUB_CLIENT_ID" then id
    else none

/-- An inbound `POST /oauth` request with the given raw query. -/
def exampleRequest (rawQuery : String) : Request :=
  { Method := "POST".toList, URL := { Path := "/oauth".toList, RawQuery := rawQuery.toList } }

/-- Surroundings in which the provider answers every call with the given status and body
(`fails` says whether reading the body ends in an error) and the caller takes every write. -/
def exampleEnv (status : Int) (data : String) (fails : Bool) : Env :=
  { Do := fun _ => some { StatusCode := status, Body := { data := data.toList, fails := fails } },
    write := .accepted }

/-- Surroundings in which the provider cannot be reached: `Do` returns an error. -/
def unreachableEnv : Env :=
  { Do := fun _ => none, write := .accepted }

/-- The outbound request to the token endpoint with the given raw query and fragment, as
`oauthHandler` hands it to `http.DefaultClient.Do`. -/
def exampleCall (rawQuery : String) (fragment : String) : Request :=
  { Method := "POST".toList,
    URL := { Scheme := "https".toList, Host := "github.com".toList,
             Path := "/login/oauth/access_token".toList, RawQuery := rawQuery.toList,
             Fragment := fragment.toList },
    Header := [("Accept".toList, ["application/json".toList])],
    Body := none,
    Host := "github.com".toList }

/-! ## Lemmas on `strings.Cut` and `net/url` -/

/-- Cutting `p ++ s` at a separator that does not occur in `p` cuts inside `s`. -/
theorem cut_append_of_not_mem (sep : Char) (p s : GoString) (h : sep ∉ p) :
    cut sep (p ++ s) = (p ++ (cut sep s).1, (cut sep s).2.1, (cut sep s).2.2) := by
  induction p with
  | nil => simp
  | cons c p ih =>
    have hc : c ≠ sep := fun e => h (by simp [e])
    have hp : sep ∉ p := fun e => h (by simp [e])
    simp [cut, hc, ih hp]

/-- Without the separator, `cut` returns the whole text and reports it as not found. -/
theorem cut_of_not_mem (sep : Char) (s : GoString) (h : sep ∉ s) :
    cut sep s = (s, [], false) := by
  induction s with
  | nil => rfl
  | cons c p ih =>
    have hc : c ≠ sep := fun e => h (by simp [e])
    have hp : sep ∉ p := fun e => h (by simp [e])
    simp [cut, hc, ih hp]

/-- The text before the separator consists of bytes of the input. -/
theorem cut_fst_subset (sep : Char) (s : GoString) : ∀ c ∈ (cut sep s).1, c ∈ s := by
  induction s with
  | nil => simp [cut]
  | cons d s ih =>
    intro c hc
    by_cases hd : d = sep
    · simp [cut, hd] at hc
    · simp only [cut, hd, if_false, List.mem_cons] at hc
      rcases hc with rfl | hc
      · simp
      · exact List.mem_cons_of_mem _ (ih c hc)

/-- The text before the separator does not contain it. -/
theorem sep_not_mem_cut_fst (sep : Char) (s : GoString) : sep ∉ (cut sep s).1 := by
  induction s with
  | nil => simp [cut]
  | cons d s ih =>
    by_cases hd : d = sep
    · simp [cut, hd]
    · simp only [cut, hd, if_false, List.mem_cons, not_or]
      exact ⟨fun e => hd e.symm, ih⟩

/-- The two parts returned by `cut`, joined by the separator when it was found, give the
input back. -/
theorem cut_rejoin (sep : Char) (s : GoString) :
    s = (cut sep s).1 ++ (if (cut sep s).2.2 then sep :: (cut sep s).2.1 else []) := by
  induction s with
  | nil => simp [cut]
  | cons d s ih =>
    by_cases hd : d = sep
    · simp [cut, hd]
    · simp only [cut, hd, if_false, List.cons_append]
      exact congrArg _ ih

/-- After a cut, the text that remains is shorter than a non-empty input. -/
theorem cut_snd_length_le (sep : Char) (s : GoString) : (cut sep s).2.1.length ≤ s.length - 1 := by
  induction s with
  | nil => simp [cut]
  | cons d s ih =>
    by_cases hd : d = sep
    · simp [cut, hd]
    · simp only [cut, hd, if_false, List.length_cons, Nat.add_sub_cancel]
      omega

/-- On text without `%` and `+` the first loop of `unescape` finds nothing to rewrite. -/
theorem unescapeScan_plain (s : GoString) (n : Nat) (b : Bool)
    (h : ∀ c ∈ s, c ≠ '%' ∧ c ≠ '+') :
    unescapeScan encodeQueryComponent s n b = .ok (n, b) := by
  induction s with
  | nil => rfl
  | cons c s ih =>
    have hc := h c (by simp)
    have hs : ∀ d ∈ s, d ≠ '%' ∧ d ≠ '+' := fun d hd => h d (by simp [hd])
    unfold unescapeScan
    simp [hc.1, hc.2, ih hs]

/-- On text without `%` and `+`, `QueryUnescape` is the identity. -/
theorem QueryUnescape_plain (s : GoString) (h : ∀ c ∈ s, c ≠ '%' ∧ c ≠ '+') :
    QueryUnescape s = .ok s := by
  simp [QueryUnescape, unescape, unescapeScan_plain s 0 false h]

/-- The fuel of `ParseQuery` is enough: any fuel above the length of the query gives the
same result, so the loop always ends on the empty query and never on the fuel. -/
theorem parseQueryLoop_fuel (f1 f2 : Nat) (m : Values) (query : GoString)
    (err : Option UrlError) (h1 : query.length < f1) (h2 : query.length < f2) :
    parseQueryLoop f1 m query err = parseQueryLoop f2 m query err := by
  induction f1 generalizing f2 m query err with
  | zero => omega
  | succ f1 ih =>
    cases f2 with
    | zero => omega
    | succ f2 =>
      rw [parseQueryLoop, parseQueryLoop]
      by_cases hq : query = []
      · simp [hq]
      · have hlen : 0 < query.length := List.length_pos.mpr hq
        have hc := cut_snd_length_le '&' query
        have key : ∀ m2 e2, parseQueryLoop f1 m2 (cut '&' query).2.1 e2
            = parseQueryLoop f2 m2 (cut '&' query).2.1 e2 :=
          fun m2 e2 => ih f2 m2 _ e2 (by omega) (by omega)
        simp only [hq, if_false, key]

/-- One iteration of `parseQuery` on `k=v&rest`, for a key and a value that need no
unescaping: the pair is added and the loop goes on with `rest`. -/
theorem parseQueryLoop_pair (fuel : Nat) (m : Values) (err : Option UrlError)
    (k v rest : GoString)
    (hk : ∀ c ∈ k, c ≠ '&' ∧ c ≠ ';' ∧ c ≠ '=' ∧ c ≠ '%' ∧ c ≠ '+')
    (hv : ∀ c ∈ v, c ≠ '&' ∧ c ≠ ';' ∧ c ≠ '%' ∧ c ≠ '+') :
    parseQueryLoop (fuel + 1) m (k ++ ('=' :: v) ++ ('&' :: rest)) err
      = parseQueryLoop fuel (m.add k v) rest err := by
  have hne : k ++ ('=' :: v) ++ ('&' :: rest) ≠ [] := by simp
  have hamp : '&' ∉ k ++ ('=' :: v) := by
    intro h
    rcases List.mem_append.mp h with h | h
    · exact (hk _ h).1 rfl
    · rcases List.mem_cons.mp h with h | h
      · exact absurd h (by decide)
      · exact (hv _ h).1 rfl
  have hsemi : ';' ∉ k ++ ('=' :: v) := by
    intro h
    rcases List.mem_append.mp h with h | h
    · exact (hk _ h).2.1 rfl
    · rcases List.mem_cons.mp h with h | h
      · exact absurd h (by decide)
      · exact (hv _ h).2.1 rfl
  have hcut : cut '&' (k ++ ('=' :: v) ++ ('&' :: rest)) = (k ++ ('=' :: v), rest, true) := by
    rw [cut_append_of_not_mem _ _ _ hamp]
    simp [cut]
  have heq : '=' ∉ k := fun h => (hk _ h).2.2.1 rfl
  have hcut2 : cut '=' (k ++ ('=' :: v)) = (k, v, true) := by
    rw [cut_append_of_not_mem _ _ _ heq]
    simp [cut]
  have hne2 : k ++ ('=' :: v) ≠ [] := by simp
  have huk : QueryUnescape k = .ok k :=
    QueryUnescape_plain k (fun c hc => ⟨(hk c hc).2.2.2.1, (hk c hc).2.2.2.2⟩)
  have huv : QueryUnescape v = .ok v :=
    QueryUnescape_plain v (fun c hc => ⟨(hv c hc).2.2.1, (hv c hc).2.2.2⟩)
  rw [parseQueryLoop]
  simp only [hne, hcut, hsemi, hne2, hcut2, huk, huv, if_false]

/-- The last iteration of `parseQuery`, on `k=v` alone. -/
theorem parseQueryLoop_last (fuel : Nat) (m : Values) (err : Option UrlError)
    (k v : GoString)
    (hk : ∀ c ∈ k, c ≠ '&' ∧ c ≠ ';' ∧ c ≠ '=' ∧ c ≠ '%' ∧ c ≠ '+')
    (hv : ∀ c ∈ v, c ≠ '&' ∧ c ≠ ';' ∧ c ≠ '%' ∧ c ≠ '+') :
    parseQueryLoop (fuel + 2) m (k ++ ('=' :: v)) err = (m.add k v, err) := by
  have hne : k ++ ('=' :: v) ≠ [] := by simp
  have hamp : '&' ∉ k ++ ('=' :: v) := by
    intro h
    rcases List.mem_append.mp h with h | h
    · exact (hk _ h).1 rfl
    · rcases List.mem_cons.mp h with h | h
      · exact absurd h (by decide)
      · exact (hv _ h).1 rfl
  have hsemi : ';' ∉ k ++ ('=' :: v) := by
    intro h
    rcases List.mem_append.mp h with h | h
    · exact (hk _ h).2.1 rfl
    · rcases List.mem_cons.mp h with h | h
      · exact absurd h (by decide)
      · exact (hv _ h).2.1 rfl
  have hcut : cut '&' (k ++ ('=' :: v)) = (k ++ ('=' :: v), [], false) :=
    cut_of_not_mem _ _ hamp
  have heq : '=' ∉ k := fun h => (hk _ h).2.2.1 rfl
  have hcut2 : cut '=' (k ++ ('=' :: v)) = (k, v, true) := by
    rw [cut_append_of_not_mem _ _ _ heq]
    simp [cut]
  have huk : QueryUnescape k = .ok k :=
    QueryUnescape_plain k (fun c hc => ⟨(hk c hc).2.2.2.1, (hk c hc).2.2.2.2⟩)
  have huv : QueryUnescape v = .ok v :=
    QueryUnescape_plain v (fun c hc => ⟨(hv c hc).2.2.1, (hv c hc).2.2.2⟩)
  rw [parseQueryLoop]
  simp only [hne, hcut, hsemi, hcut2, huk, huv, if_false]
  rw [parseQueryLoop]
  simp

/-- A plain value has none of the bytes that `parseQuery` treats specially in a value. -/
theorem plainValue_value {s : GoString} (h : plainValue s) :
    ∀ c ∈ s, c ≠ '&' ∧ c ≠ ';' ∧ c ≠ '%' ∧ c ≠ '+' :=
  fun c hc => ⟨(h c hc).1, (h c hc).2.2.2.2.1, (h c hc).2.2.1, (h c hc).2.2.2.1⟩

/-- Parsing the unescaped query of three plain values gives the three values back. -/
theorem ParseQuery_three (id secret code : GoString) (hid : plainValue id)
    (hsecret : plainValue secret) (hcode : plainValue code) :
    ParseQuery ("client_id=".toList ++ id ++ "&client_secret=".toList ++ secret
        ++ "&code=".toList ++ code)
      = ([("client_id".toList, [id]), ("client_secret".toList, [secret]),
          ("code".toList, [code])], none) := by
  have hq : "client_id=".toList ++ id ++ "&client_secret=".toList ++ secret
        ++ "&code=".toList ++ code
      = "client_id".toList ++ ('=' :: id) ++ ('&' ::
          ("client_secret".toList ++ ('=' :: secret) ++ ('&' ::
            ("code".toList ++ ('=' :: code))))) := by
    simp
  rw [hq]
  unfold ParseQuery
  obtain ⟨n, hn⟩ : ∃ n, ("client_id".toList ++ ('=' :: id) ++ ('&' ::
          ("client_secret".toList ++ ('=' :: secret) ++ ('&' ::
            ("code".toList ++ ('=' :: code)))))).length + 1 = n + 2 + 1 + 1 :=
    ⟨id.length + secret.length + code.length + 28, by simp; omega⟩
  rw [hn, parseQueryLoop_pair _ _ _ _ _ _ (by decide) (plainValue_value hid),
    parseQueryLoop_pair _ _ _ _ _ _ (by decide) (plainValue_value hsecret),
    parseQueryLoop_last _ _ _ _ _ (by decide) (plainValue_value hcode)]
  rfl

/-- The authority `github.com` is accepted unchanged. -/
theorem parseAuthority_github : parseAuthority "github.com".toList = .ok "github.com".toList := by
  decide

/-- The path of the token endpoint has no escapes. -/
theorem unescape_tokenPath :
    unescape "/login/oauth/access_token".toList encodePath
      = .ok "/login/oauth/access_token".toList := by
  decide

/-- The scheme of the token-endpoint URL is `https`, whatever follows the `?`. -/
theorem getScheme_tokenURL (t : GoString) :
    getScheme ("https://github.com/login/oauth/access_token?".toList ++ t)
      = .ok ("https".toList, "//github.com/login/oauth/access_token?".toList ++ t) := by
  simp [getScheme, getSchemeLoop]

/-- A text that ends in `?` contains a `?`. -/
theorem count_question_pos (t : GoString) (h : t.getLast? = some '?') : 0 < t.count '?' := by
  apply List.count_pos_iff.mpr
  exact List.mem_of_getLast?_eq_some h

/-- Result of `parse` on the token-endpoint URL followed by a query that starts with `c` and
has no control byte: the query is kept verbatim as `RawQuery`. -/
theorem parse_tokenURL (t : GoString) (hctl : stringContainsCTLByte ('c' :: t) = false) :
    parse ("https://github.com/login/oauth/access_token?".toList ++ 'c' :: t)
      = .ok { Scheme := "https".toList, Host := "github.com".toList,
              Path := "/login/oauth/access_token".toList, RawQuery := 'c' :: t } := by
  have hforce : ¬ (("//github.com/login/oauth/access_token?".toList ++ 'c' :: t).getLast? = some '?'
      ∧ ("//github.com/login/oauth/access_token?".toList ++ 'c' :: t).count '?' = 1) := by
    rintro ⟨h1, h2⟩
    have h3 : ('c' :: t).getLast? = some '?' := by
      rw [List.getLast?_append] at h1
      simpa using h1
    have h4 := count_question_pos _ h3
    rw [List.count_append] at h2
    have h5 : ("//github.com/login/oauth/access_token?".toList).count '?' = 1 := by decide
    omega
  have hctl2 : stringContainsCTLByte
      ("https://github.com/login/oauth/access_token?".toList ++ 'c' :: t) = false := by
    unfold stringContainsCTLByte at hctl ⊢
    rw [List.any_append, hctl]
    decide
  have hstar : "https://github.com/login/oauth/access_token?".toList ++ 'c' :: t ≠ ['*'] := by
    simp
  have hcut : cut '?' ("//github.com/login/oauth/access_token?".toList ++ 'c' :: t)
      = ("//github.com/login/oauth/access_token".toList, 'c' :: t, true) := by
    simp [cut]
  have hf : (decide (("//github.com/login/oauth/access_token?".toList ++ 'c' :: t).getLast?
        = some '?')
      && decide (("//github.com/login/oauth/access_token?".toList ++ 'c' :: t).count '?' = 1))
      = false := by
    rw [Bool.eq_false_iff]
    intro h
    simp only [Bool.and_eq_true, decide_eq_true_eq] at h
    exact hforce h
  unfold parse
  rw [hctl2, getScheme_tokenURL]
  simp only [hstar, hcut, hf]
  rfl

/-- A control byte anywhere in the text makes `parse` fail. -/
theorem parse_of_control_byte (s : GoString) (h : stringContainsCTLByte s = true) :
    parse s = .error .invalidControlCharacter := by
  unfold parse
  rw [h]
  rfl

/-- Result of `url.Parse` on the token-endpoint URL followed by a query that starts with `c`:
the query is cut at its first `#`; a control byte before the `#` or a malformed escape after it
is an error. -/
theorem Parse_tokenURL (t : GoString) :
    Parse ("https://github.com/login/oauth/access_token?".toList ++ 'c' :: t) =
      if stringContainsCTLByte (cut '#' ('c' :: t)).1 then .error .invalidControlCharacter
      else if (cut '#' ('c' :: t)).2.1 = [] then
        .ok { Scheme := "https".toList, Host := "github.com".toList,
              Path := "/login/oauth/access_token".toList, RawQuery := (cut '#' ('c' :: t)).1 }
      else
        match unescape (cut '#' ('c' :: t)).2.1 encodeFragment with
        | .error e => .error e
        | .ok frag =>
          .ok { Scheme := "https".toList, Host := "github.com".toList,
                Path := "/login/oauth/access_token".toList, RawQuery := (cut '#' ('c' :: t)).1,
                Fragment := frag } := by
  have hc : cut '#' ("https://github.com/login/oauth/access_token?".toList ++ 'c' :: t)
      = ("https://github.com/login/oauth/access_token?".toList ++ (cut '#' ('c' :: t)).1,
         (cut '#' ('c' :: t)).2.1, (cut '#' ('c' :: t)).2.2) :=
    cut_append_of_not_mem _ _ _ (by decide)
  have h1 : (cut '#' ('c' :: t)).1 = 'c' :: (cut '#' t).1 := by
    simp [cut]
  unfold Parse
  rw [hc]
  simp only
  by_cases hctl : stringContainsCTLByte (cut '#' ('c' :: t)).1 = true
  · have hctl2 : stringContainsCTLByte
        ("https://github.com/login/oauth/access_token?".toList ++ (cut '#' ('c' :: t)).1)
          = true := by
      unfold stringContainsCTLByte at hctl ⊢
      rw [List.any_append, hctl]
      simp
    rw [parse_of_control_byte _ hctl2]
    simp [hctl]
  · have hctl3 : stringContainsCTLByte (cut '#' ('c' :: t)).1 = false := by
      simpa using hctl
    rw [if_neg hctl]
    rw [h1] at hctl3 ⊢
    rw [parse_tokenURL _ hctl3]

/-- The method `POST` is valid. -/
theorem validMethod_post : validMethod MethodPost = true := by decide

/-- The host `github.com` has no empty port to remove. -/
theorem removeEmptyPort_github :
    removeEmptyPort "github.com".toList = "github.com".toList := by decide

/-- The pair returned by `http.NewRequest` is `(nil, err)` or `(req, nil)`. -/
theorem NewRequest_shape (method url : GoString) (body : Option GoString) :
    (∃ e, NewRequest method url body = (none, some e)) ∨
    (∃ req, NewRequest method url body = (some req, none)) := by
  simp only [NewRequest]
  split_ifs <;> first
    | exact Or.inl ⟨_, rfl⟩
    | (cases Parse url with
       | error e => exact Or.inl ⟨_, rfl⟩
       | ok u => exact Or.inr ⟨_, rfl⟩)

/-- What `http.NewRequest` returns for the token-endpoint URL when it returns a request. -/
theorem NewRequest_tokenURL (t : GoString) (req0 : Request)
    (h : NewRequest MethodPost
      ("https://github.com/login/oauth/access_token?".toList ++ 'c' :: t) none
        = (some req0, none)) :
    req0.Method = "POST".toList ∧ req0.URL.Scheme = "https".toList ∧
    req0.URL.Host = "github.com".toList ∧
    req0.URL.Path = "/login/oauth/access_token".toList ∧
    req0.URL.RawQuery = (cut '#' ('c' :: t)).1 ∧
    req0.Header = [] ∧ req0.Body = none ∧ req0.Host = "github.com".toList := by
  unfold NewRequest at h
  have hm : (if MethodPost = [] then "GET".toList else MethodPost) = MethodPost := by decide
  simp only [hm, validMethod_post, Bool.true_eq_false, if_false] at h
  rw [Parse_tokenURL] at h
  split_ifs at h with h1 h2
  · simp at h
  · simp only [Prod.mk.injEq, Option.some.injEq, and_true] at h
    subst h
    exact ⟨rfl, rfl, removeEmptyPort_github, rfl, rfl, rfl, rfl, removeEmptyPort_github⟩
  · cases hu : unescape (cut '#' ('c' :: t)).2.1 encodeFragment with
    | error e => rw [hu] at h; simp at h
    | ok frag =>
      rw [hu] at h
      simp only [Prod.mk.injEq, Option.some.injEq, and_true] at h
      subst h
      exact ⟨rfl, rfl, removeEmptyPort_github, rfl, rfl, rfl, rfl, removeEmptyPort_github⟩

/-- The URL text that `oauthHandler` formats. -/
theorem Sprintf_tokenURL (id secret code : GoString) :
    Sprintf
      "https://github.com/login/oauth/access_token?client_id=%s&client_secret=%s&code=%s".toList
      [id, secret, code]
    = "https://github.com/login/oauth/access_token?".toList ++
        'c' :: ("lient_id=".toList ++ id ++ "&client_secret=".toList ++ secret
          ++ "&code=".toList ++ code) := by
  simp [Sprintf]

/-- For plain values, `http.NewRequest` succeeds on the formatted URL and the raw query of the
request is the formatted query, verbatim. -/
theorem NewRequest_plain (id secret code : GoString) (hid : plainValue id)
    (hsecret : plainValue secret) (hcode : plainValue code) :
    ∃ req0, NewRequest MethodPost (Sprintf
        "https://github.com/login/oauth/access_token?client_id=%s&client_secret=%s&code=%s".toList
        [id, secret, code]) none = (some req0, none) ∧
      req0.URL.RawQuery = "client_id=".toList ++ id ++ "&client_secret=".toList ++ secret
        ++ "&code=".toList ++ code := by
  have hplain : ∀ c ∈ 'c' :: ("lient_id=".toList ++ id ++ "&client_secret=".toList
      ++ secret ++ "&code=".toList ++ code), c ≠ '#' ∧ ¬ (c.toNat < 32 ∨ c.toNat = 127) := by
    intro c hc
    simp only [List.mem_cons, List.mem_append] at hc
    rcases hc with rfl | (((((hc | hc) | hc) | hc) | hc) | hc)
    · decide
    · revert c; decide
    · exact ⟨(hid c hc).2.1, (hid c hc).2.2.2.2.2⟩
    · revert c; decide
    · exact ⟨(hsecret c hc).2.1, (hsecret c hc).2.2.2.2.2⟩
    · revert c; decide
    · exact ⟨(hcode c hc).2.1, (hcode c hc).2.2.2.2.2⟩
  have hhash : '#' ∉ 'c' :: ("lient_id=".toList ++ id ++ "&client_secret=".toList
      ++ secret ++ "&code=".toList ++ code) := fun h => (hplain _ h).1 rfl
  have hctl : stringContainsCTLByte ('c' :: ("lient_id=".toList ++ id
      ++ "&client_secret=".toList ++ secret ++ "&code=".toList ++ code)) = false := by
    unfold stringContainsCTLByte
    rw [List.any_eq_false]
    intro c hc
    have := (hplain c hc).2
    simpa [not_or] using this
  rw [Sprintf_tokenURL]
  unfold NewRequest
  have hm : (if MethodPost = [] then "GET".toList else MethodPost) = MethodPost := by decide
  simp only [hm, validMethod_post, Bool.true_eq_false, if_false]
  rw [Parse_tokenURL, cut_of_not_mem _ _ hhash]
  simp only [hctl, Bool.false_eq_true, if_false, if_true]
  exact ⟨_, rfl, by simp⟩

/-! ## Lemmas on the handlers and on `main` -/

/-- With the request built, `oauthHandler` executes exactly one outbound call, on that request
with the `Accept` header set. -/
theorem oauthHandler_calls_of_request {g : Globals} {env : Env} {r : Request} {req0 : Request}
    (hcode : r.URL.Query.Get "code".toList ≠ [])
    (hN : NewRequest MethodPost (Sprintf
        "https://github.com/login/oauth/access_token?client_id=%s&client_secret=%s&code=%s".toList
        [g.githubClientID, g.githubClientSecret, r.URL.Query.Get "code".toList]) none
          = (some req0, none)) :
    (oauthHandler g env r).calls
      = [{ req0 with Header := headerSet req0.Header "Accept".toList
                                  "application/json".toList }] := by
  simp only [oauthHandler, hcode, hN]
  simp only [ne_eq, not_true_eq_false, if_false]
  generalize env.Do _ = d
  cases d with
  | none => rfl
  | some resp =>
    simp only
    split_ifs <;> rfl

/-- Every outbound call of `oauthHandler` is the request built by `http.NewRequest` from the
formatted URL, with the `Accept` header set; the code is then non-empty and the call is the only
one. -/
theorem oauthHandler_call_built {g : Globals} {env : Env} {r : Request} {req : Request}
    (hreq : req ∈ (oauthHandler g env r).calls) :
    r.URL.Query.Get "code".toList ≠ [] ∧
    ∃ req0, NewRequest MethodPost (Sprintf
        "https://github.com/login/oauth/access_token?client_id=%s&client_secret=%s&code=%s".toList
        [g.githubClientID, g.githubClientSecret, r.URL.Query.Get "code".toList]) none
          = (some req0, none) ∧
      req = { req0 with Header := headerSet req0.Header "Accept".toList
                                    "application/json".toList } ∧
      (oauthHandler g env r).calls = [req] := by
  by_cases hcode : r.URL.Query.Get "code".toList = []
  · simp only [oauthHandler, hcode] at hreq
    simp at hreq
  · refine ⟨hcode, ?_⟩
    rcases NewRequest_shape MethodPost (Sprintf
        "https://github.com/login/oauth/access_token?client_id=%s&client_secret=%s&code=%s".toList
        [g.githubClientID, g.githubClientSecret, r.URL.Query.Get "code".toList]) none
      with ⟨e, hN⟩ | ⟨req0, hN⟩
    · simp only [oauthHandler, hcode, hN] at hreq
      simp at hreq
    · refine ⟨req0, hN, ?_⟩
      simp only [oauthHandler, hcode, hN] at hreq ⊢
      simp only [ne_eq, not_true_eq_false, if_false] at hreq ⊢
      generalize env.Do _ = d at hreq ⊢
      cases d with
      | none =>
        simp only [List.mem_singleton] at hreq
        exact ⟨hreq, by rw [hreq]⟩
      | some resp =>
        simp only at hreq ⊢
        split_ifs at hreq ⊢ <;>
          (simp only [List.mem_singleton] at hreq; exact ⟨hreq, by rw [hreq]⟩)

/-- Whenever `http.NewRequest` fails for a non-empty code, `oauthHandler` panics on
`req.Header.Set` before it looks at the error: nothing is written and no call is made. -/
theorem oauthHandler_panics_of_nil_request (g : Globals) (env : Env) (r : Request)
    (e : UrlError) (hcode : r.URL.Query.Get "code".toList ≠ [])
    (hN : NewRequest MethodPost (Sprintf
        "https://github.com/login/oauth/access_token?client_id=%s&client_secret=%s&code=%s".toList
        [g.githubClientID, g.githubClientSecret, r.URL.Query.Get "code".toList]) none
          = (none, some e)) :
    (oauthHandler g env r).panicked = true ∧ (oauthHandler g env r).w.wroteHeader = false ∧
    (oauthHandler g env r).calls = [] := by
  simp only [oauthHandler, hcode, hN]
  simp

/-- The function `main` never assigns the package-level variables. -/
theorem main_globals (environ : String → Option GoString) (listenFails : Bool) (g : Globals) :
    (main environ listenFails g).globals = g := by
  simp only [main]
  split_ifs <;> rfl

/-! ## The claims -/

/-- C1: for every request whose query has no `code` parameter, or whose first `code` value is
the empty string, whatever the package variables and the surroundings, `oauthHandler` returns
normally with status 400, an empty body (nothing is passed to `Write`) and no outbound call. -/
theorem oauthHandler_missing_code (g : Globals) (env : Env) (r : Request)
    (h : r.URL.Query.lookup "code".toList = [] ∨
      (r.URL.Query.lookup "code".toList).head? = some []) :
    (oauthHandler g env r).panicked = false ∧
    (oauthHandler g env r).w.wroteHeader = true ∧
    (oauthHandler g env r).w.status = 400 ∧
    (oauthHandler g env r).w.body = [] ∧
    (oauthHandler g env r).w.writes = [] ∧
    (oauthHandler g env r).calls = [] := by
  have hget : r.URL.Query.Get "code".toList = [] := by
    unfold Values.Get
    rcases h with h | h
    · rw [h]
    · cases hl : r.URL.Query.lookup "code".toList with
      | nil => rfl
      | cons x xs => rw [hl] at h; simpa using h
  simp only [oauthHandler, hget]
  simp [ResponseWriter.WriteHeader, StatusBadRequest]

/-- Witness for C1: a query without `code`, and a query whose first `code` is empty. -/
theorem oauthHandler_missing_code_witness :
    ((oauthHandler {} (exampleEnv 200 "ok" false) (exampleRequest "state=1")).w.status = 400 ∧
      (oauthHandler {} (exampleEnv 200 "ok" false) (exampleRequest "state=1")).calls = []) ∧
    ((oauthHandler {} (exampleEnv 200 "ok" false) (exampleRequest "code=&code=x")).w.status = 400 ∧
      (oauthHandler {} (exampleEnv 200 "ok" false) (exampleRequest "code=&code=x")).calls = []) :=
  ⟨let h := oauthHandler_missing_code {} (exampleEnv 200 "ok" false) (exampleRequest "state=1")
      (Or.inl (by decide))
   ⟨h.2.2.1, h.2.2.2.2.2⟩,
   let h := oauthHandler_missing_code {} (exampleEnv 200 "ok" false)
      (exampleRequest "code=&code=x") (Or.inr (by decide))
   ⟨h.2.2.1, h.2.2.2.2.2⟩⟩

/-- C2: for every request with a non-empty `code` and every byte sequence `B`, if the outbound
call `req` made by `oauthHandler` is answered with status 200 and a body that reads fully as `B`,
and the caller takes the write, then the response has status 200 and its body is exactly `B`. -/
theorem oauthHandler_relays_body (g : Globals) (env : Env) (r : Request) (B : GoString)
    (req : Request) (hcode : r.URL.Query.Get "code".toList ≠ [])
    (hreq : req ∈ (oauthHandler g env r).calls)
    (hDo : env.Do req = some { StatusCode := 200, Body := { data := B, fails := false } })
    (hw : env.write = .accepted) :
    (oauthHandler g env r).panicked = false ∧
    (oauthHandler g env r).w.wroteHeader = true ∧
    (oauthHandler g env r).w.status = 200 ∧
    (oauthHandler g env r).w.body = B := by
  obtain ⟨_, req0, hN, rfl, _⟩ := oauthHandler_call_built hreq
  simp only [oauthHandler, hcode, hN, hDo, hw]
  simp [ResponseWriter.Write, ResponseWriter.WriteHeader, StatusOK, ReadFrom]

/-- Witness for C2: the provider answers `code=abc123` with 200 and a JSON token. -/
theorem oauthHandler_relays_body_witness :
    (oauthHandler {} (exampleEnv 200 "\x7b\"access_token\":\"xyz\"\x7d" false)
        (exampleRequest "code=abc123")).panicked = false ∧
    (oauthHandler {} (exampleEnv 200 "\x7b\"access_token\":\"xyz\"\x7d" false)
        (exampleRequest "code=abc123")).w.wroteHeader = true ∧
    (oauthHandler {} (exampleEnv 200 "\x7b\"access_token\":\"xyz\"\x7d" false)
        (exampleRequest "code=abc123")).w.status = 200 ∧
    (oauthHandler {} (exampleEnv 200 "\x7b\"access_token\":\"xyz\"\x7d" false)
        (exampleRequest "code=abc123")).w.body = "\x7b\"access_token\":\"xyz\"\x7d".toList :=
  oauthHandler_relays_body {} (exampleEnv 200 "\x7b\"access_token\":\"xyz\"\x7d" false)
    (exampleRequest "code=abc123") "\x7b\"access_token\":\"xyz\"\x7d".toList
    (exampleCall "client_id=&client_secret=&code=abc123" "")
    (by decide) (by decide) rfl rfl

/-- C3: for every request with a non-empty `code`, if the outbound call `req` is answered with
a status other than 200 (whatever the body), `oauthHandler` responds with status 500 and an empty
body: nothing of the provider response is passed to `Write`. -/
theorem oauthHandler_non200 (g : Globals) (env : Env) (r : Request) (resp : Response)
    (req : Request) (hcode : r.URL.Query.Get "code".toList ≠ [])
    (hreq : req ∈ (oauthHandler g env r).calls)
    (hDo : env.Do req = some resp) (hst : resp.StatusCode ≠ 200) :
    (oauthHandler g env r).panicked = false ∧
    (oauthHandler g env r).w.wroteHeader = true ∧
    (oauthHandler g env r).w.status = 500 ∧
    (oauthHandler g env r).w.body = [] ∧
    (oauthHandler g env r).w.writes = [] := by
  obtain ⟨_, req0, hN, rfl, _⟩ := oauthHandler_call_built hreq
  simp only [oauthHandler, hcode, hN, hDo]
  simp [ResponseWriter.WriteHeader, StatusOK, StatusInternalServerError, hst]

/-- Witness for C3: the provider answers 401. -/
theorem oauthHandler_non200_witness :
    (oauthHandler {} (exampleEnv 401 "bad_verification_code" false)
        (exampleRequest "code=abc123")).w.status = 500 ∧
    (oauthHandler {} (exampleEnv 401 "bad_verification_code" false)
        (exampleRequest "code=abc123")).w.body = [] :=
  let h := oauthHandler_non200 {} (exampleEnv 401 "bad_verification_code" false)
    (exampleRequest "code=abc123") { StatusCode := 401, Body := { data := "bad_verification_code".toList, fails := false } }
    (exampleCall "client_id=&client_secret=&code=abc123" "")
    (by decide) (by decide) rfl (by decide)
  ⟨h.2.2.1, h.2.2.2.1⟩

/-- C4: for every request with a non-empty `code`, if the outbound call `req` fails at
transport level, or is answered with 200 and reading the body fails after some bytes `part`,
`oauthHandler` responds with status 500 and an empty body: no byte is passed to `Write`. -/
theorem oauthHandler_transport_or_read_error (g : Globals) (env : Env) (r : Request)
    (req : Request) (hcode : r.URL.Query.Get "code".toList ≠ [])
    (hreq : req ∈ (oauthHandler g env r).calls)
    (hDo : env.Do req = none ∨
      ∃ part, env.Do req = some { StatusCode := 200, Body := { data := part, fails := true } }) :
    (oauthHandler g env r).panicked = false ∧
    (oauthHandler g env r).w.wroteHeader = true ∧
    (oauthHandler g env r).w.status = 500 ∧
    (oauthHandler g env r).w.body = [] ∧
    (oauthHandler g env r).w.writes = [] := by
  obtain ⟨_, req0, hN, rfl, _⟩ := oauthHandler_call_built hreq
  rcases hDo with hDo | ⟨part, hDo⟩
  · simp only [oauthHandler, hcode, hN, hDo]
    simp [ResponseWriter.WriteHeader, StatusInternalServerError]
  · simp only [oauthHandler, hcode, hN, hDo]
    simp [ResponseWriter.WriteHeader, StatusOK, StatusInternalServerError, ReadFrom]

/-- Witness for C4: an unreachable provider, and a body that breaks off after four bytes. -/
theorem oauthHandler_transport_or_read_error_witness :
    ((oauthHandler {} unreachableEnv (exampleRequest "code=abc123")).w.status = 500 ∧
      (oauthHandler {} unreachableEnv (exampleRequest "code=abc123")).w.body = []) ∧
    ((oauthHandler {} (exampleEnv 200 "\x7b\"acc" true) (exampleRequest "code=abc123")).w.status
        = 500 ∧
      (oauthHandler {} (exampleEnv 200 "\x7b\"acc" true) (exampleRequest "code=abc123")).w.body
        = []) :=
  ⟨let h := oauthHandler_transport_or_read_error {} unreachableEnv
      (exampleRequest "code=abc123") (exampleCall "client_id=&client_secret=&code=abc123" "")
      (by decide) (by decide) (Or.inl rfl)
   ⟨h.2.2.1, h.2.2.2.1⟩,
   let h := oauthHandler_transport_or_read_error {} (exampleEnv 200 "\x7b\"acc" true)
      (exampleRequest "code=abc123") (exampleCall "client_id=&client_secret=&code=abc123" "")
      (by decide) (by decide) (Or.inr ⟨"\x7b\"acc".toList, rfl⟩)
   ⟨h.2.2.1, h.2.2.2.1⟩⟩

/-- C5, evaluated at a failing input: with `GITHUB_CLIENT_SECRET=s3cret` and
`GITHUB_CLIENT_ID=Iv1.abc` in the environment, the package-level variables are still empty after
`main`, and the outbound call for `code=abc123` carries `client_id=` and `client_secret=` with
empty values, not the values of the environment. -/
theorem main_leaves_package_variables_empty :
    (main (exampleEnviron (some "s3cret".toList) (some "Iv1.abc".toList)) false {}).globals
      = { githubClientSecret := [], githubClientID := [] } ∧
    (oauthHandler
        (main (exampleEnviron (some "s3cret".toList) (some "Iv1.abc".toList)) false {}).globals
        (exampleEnv 200 "ok" false) (exampleRequest "code=abc123")).calls.map
          (fun req => req.URL.RawQuery)
      = ["client_id=&client_secret=&code=abc123".toList] := by
  decide

/-- Counterexample to C6 as stated: for the request `code=a%23b` the decoded code is `a#b`, an
outbound call is made, and its query string is `client_id=&client_secret=&code=a` (with `b` as the
URL fragment), which is not `client_id=<id>&client_secret=<secret>&code=<code>`. -/
theorem oauthHandler_query_stops_at_hash :
    (exampleRequest "code=a%23b").URL.Query.Get "code".toList = "a#b".toList ∧
    (oauthHandler {} (exampleEnv 200 "ok" false) (exampleRequest "code=a%23b")).calls
      = [exampleCall "client_id=&client_secret=&code=a" "b"] ∧
    ∃ req ∈ (oauthHandler {} (exampleEnv 200 "ok" false) (exampleRequest "code=a%23b")).calls,
      req.URL.RawQuery ≠ "client_id=".toList ++ [] ++ "&client_secret=".toList ++ []
        ++ "&code=".toList ++ (exampleRequest "code=a%23b").URL.Query.Get "code".toList := by
  decide

/-- C6, amended: every outbound call made by `oauthHandler` uses method POST, targets
`https://github.com/login/oauth/access_token`, carries exactly the header
`Accept: application/json` and has no body; its query string is the text
`client_id=<id>&client_secret=<secret>&code=<code>` (the two package variables and the decoded
code, in that order, inserted verbatim) up to its first `#`, hence the whole text when there is
no `#` in it. -/
theorem oauthHandler_outbound_call (g : Globals) (env : Env) (r : Request) (req : Request)
    (hreq : req ∈ (oauthHandler g env r).calls) :
    req.Method = "POST".toList ∧
    req.URL.Scheme = "https".toList ∧
    req.URL.Host = "github.com".toList ∧
    req.URL.Path = "/login/oauth/access_token".toList ∧
    req.URL.RawQuery = (cut '#' ("client_id=".toList ++ g.githubClientID
      ++ "&client_secret=".toList ++ g.githubClientSecret
      ++ "&code=".toList ++ r.URL.Query.Get "code".toList)).1 ∧
    req.Header = [("Accept".toList, ["application/json".toList])] ∧
    req.Body = none := by
  obtain ⟨_, req0, hN, rfl, _⟩ := oauthHandler_call_built hreq
  rw [Sprintf_tokenURL] at hN
  obtain ⟨h1, h2, h3, h4, h5, h6, h7, _⟩ := NewRequest_tokenURL _ _ hN
  refine ⟨h1, h2, h3, h4, ?_, ?_, h7⟩
  · simp only [h5]
    rfl
  · simp only [h6]
    rfl

/-- Witness for C6 amended: the call for `code=abc123` with a client id and a secret set. -/
theorem oauthHandler_outbound_call_witness :
    (exampleCall "client_id=Iv1.abc&client_secret=s3cret&code=abc123" "").URL.RawQuery
      = (cut '#' ("client_id=".toList ++ "Iv1.abc".toList ++ "&client_secret=".toList
          ++ "s3cret".toList ++ "&code=".toList
          ++ (exampleRequest "code=abc123").URL.Query.Get "code".toList)).1 ∧
    (exampleCall "client_id=Iv1.abc&client_secret=s3cret&code=abc123" "").Body = none :=
  let h := oauthHandler_outbound_call
    { githubClientSecret := "s3cret".toList, githubClientID := "Iv1.abc".toList }
    (exampleEnv 200 "ok" false) (exampleRequest "code=abc123")
    (exampleCall "client_id=Iv1.abc&client_secret=s3cret&code=abc123" "") (by decide)
  ⟨h.2.2.2.2.1, h.2.2.2.2.2.2⟩

/-- C7: if `GITHUB_CLIENT_SECRET` or `GITHUB_CLIENT_ID` is unset or empty, the last step of
`main` is `os.Exit(1)` and neither the creation of the router nor `ListenAndServe` is among its
steps; if both are set and non-empty, `main` reaches `ListenAndServe` on `:3000`, after the router
was created and with no exit before it. -/
theorem main_exit_or_listen (environ : String → Option GoString) (listenFails : Bool)
    (g : Globals) :
    (((environ "GITHUB_CLIENT_SECRET" = none ∨ environ "GITHUB_CLIENT_SECRET" = some []) ∨
      (environ "GITHUB_CLIENT_ID" = none ∨ environ "GITHUB_CLIENT_ID" = some [])) →
        (main environ listenFails g).events.getLast? = some (.exit 1) ∧
        Event.newRouter ∉ (main environ listenFails g).events ∧
        ∀ addr, Event.listenAndServe addr ∉ (main environ listenFails g).events) ∧
    ((∃ s, environ "GITHUB_CLIENT_SECRET" = some s ∧ s ≠ []) ∧
      (∃ i, environ "GITHUB_CLIENT_ID" = some i ∧ i ≠ []) →
        ∃ before after,
          (main environ listenFails g).events = before ++ Event.listenAndServe ":3000" :: after ∧
          (∀ code, Event.exit code ∉ before) ∧ Event.newRouter ∈ before) := by
  constructor
  · intro h
    by_cases hs : Getenv environ "GITHUB_CLIENT_SECRET" = []
    · simp [main, hs]
    · by_cases hi : Getenv environ "GITHUB_CLIENT_ID" = []
      · simp [main, hs, hi]
      · exfalso
        rcases h with (h | h) | (h | h) <;> simp [Getenv, h] at hs hi
  · rintro ⟨⟨s, hs, hs0⟩, ⟨i, hi, hi0⟩⟩
    refine ⟨[.logDebug "Starting reverse proxy", .newRouter,
            .use "middleware.Recoverer", .use "middleware.Logger", .use "cors.Handler",
            .handle "GET" "/" .testHandler, .handle "POST" "/oauth" .oauthHandler],
            (if listenFails then
                [.logError "error while listening and serving", .exit 1]
              else []), ?_, ?_, ?_⟩
    · simp [main, Getenv, hs, hi, hs0, hi0]
    · simp
    · simp

/-- Witness for C7: an environment without `GITHUB_CLIENT_ID`, and one with both variables. -/
theorem main_exit_or_listen_witness :
    ((main (exampleEnviron (some "s3cret".toList) none) false {}).events.getLast?
        = some (.exit 1) ∧
      Event.newRouter ∉ (main (exampleEnviron (some "s3cret".toList) none) false {}).events ∧
      ∀ addr, Event.listenAndServe addr ∉
        (main (exampleEnviron (some "s3cret".toList) none) false {}).events) ∧
    (∃ before after,
      (main (exampleEnviron (some "s3cret".toList) (some "Iv1.abc".toList)) false {}).events
        = before ++ Event.listenAndServe ":3000" :: after ∧
      (∀ code, Event.exit code ∉ before) ∧ Event.newRouter ∈ before) :=
  ⟨(main_exit_or_listen (exampleEnviron (some "s3cret".toList) none) false {}).1
      (Or.inr (Or.inl (by decide))),
   (main_exit_or_listen (exampleEnviron (some "s3cret".toList) (some "Iv1.abc".toList))
      false {}).2
        ⟨⟨"s3cret".toList, rfl, by decide⟩, ⟨"Iv1.abc".toList, rfl, by decide⟩⟩⟩

/-- C8: for every request (never looked at) and whatever the surroundings, `testHandler`
returns normally, makes no outbound call, sets status 200 and passes exactly the 12 bytes
`Hello world!` to `Write`, in one call; they are the body of the response whenever the caller
takes the write. -/
theorem testHandler_hello (env : Env) (r : Request) :
    (testHandler env r).panicked = false ∧
    (testHandler env r).calls = [] ∧
    (testHandler env r).w.wroteHeader = true ∧
    (testHandler env r).w.status = 200 ∧
    (testHandler env r).w.writes = ["Hello world!".toList] ∧
    "Hello world!".toList.length = 12 ∧
    (env.write = .accepted → (testHandler env r).w.body = "Hello world!".toList) := by
  cases hw : env.write <;>
    simp [testHandler, ResponseWriter.Write, ResponseWriter.WriteHeader, StatusOK, hw]

/-- Witness for C8: a request with a query string. -/
theorem testHandler_hello_witness :
    (testHandler (exampleEnv 200 "ok" false) (exampleRequest "x=1")).w.status = 200 ∧
    (testHandler (exampleEnv 200 "ok" false) (exampleRequest "x=1")).w.body
      = "Hello world!".toList :=
  let h := testHandler_hello (exampleEnv 200 "ok" false) (exampleRequest "x=1")
  ⟨h.2.2.2.1, h.2.2.2.2.2.2 rfl⟩

/-- Counterexample to C9 as stated: for the request `code=x%26client_id%3Devil` the decoded
code is `x&client_id=evil`; an outbound call is made, and parsing its query string gives two values
for `client_id` and the value `x` for `code`, which is not the decoded code. -/
theorem oauthHandler_code_injects_parameter :
    (exampleRequest "code=x%26client_id%3Devil").URL.Query.Get "code".toList
      = "x&client_id=evil".toList ∧
    (oauthHandler {} (exampleEnv 200 "ok" false)
        (exampleRequest "code=x%26client_id%3Devil")).calls.map
          (fun req => ParseQuery req.URL.RawQuery)
      = [([("client_id".toList, [[], "evil".toList]), ("client_secret".toList, [[]]),
           ("code".toList, [['x']])], none)] ∧
    ∃ req ∈ (oauthHandler {} (exampleEnv 200 "ok" false)
        (exampleRequest "code=x%26client_id%3Devil")).calls,
      ((ParseQuery req.URL.RawQuery).1.lookup "client_id".toList).length ≠ 1 ∧
      (ParseQuery req.URL.RawQuery).1.lookup "code".toList
        ≠ [(exampleRequest "code=x%26client_id%3Devil").URL.Query.Get "code".toList] := by
  decide

/-- C9, amended: for every non-empty decoded `code`, client id and client secret that
contain none of the bytes `&`, `#`, `%`, `+`, `;` and no control byte, `oauthHandler` makes exactly
one outbound call, and parsing its query string yields exactly the three parameters `client_id`,
`client_secret` and `code`, each with a single value: the client id, the secret and the decoded
code; there is no parse error. -/
theorem oauthHandler_plain_values_parse_back (g : Globals) (env : Env) (r : Request)
    (hcode : r.URL.Query.Get "code".toList ≠ [])
    (hid : plainValue g.githubClientID) (hsecret : plainValue g.githubClientSecret)
    (hplain : plainValue (r.URL.Query.Get "code".toList)) :
    ∃ req, (oauthHandler g env r).calls = [req] ∧
      ParseQuery req.URL.RawQuery
        = ([("client_id".toList, [g.githubClientID]),
            ("client_secret".toList, [g.githubClientSecret]),
            ("code".toList, [r.URL.Query.Get "code".toList])], none) := by
  obtain ⟨req0, hN, hq⟩ := NewRequest_plain _ _ _ hid hsecret hplain
  refine ⟨_, oauthHandler_calls_of_request hcode hN, ?_⟩
  simp only [hq]
  exact ParseQuery_three _ _ _ hid hsecret hplain

/-- Witness for C9 amended: the code `abc=123` (an `=` in a value is harmless). -/
theorem oauthHandler_plain_values_parse_back_witness :
    ∃ req, (oauthHandler { githubClientSecret := "s3cret".toList, githubClientID := "Iv1.abc".toList }
        (exampleEnv 200 "ok" false) (exampleRequest "code=abc%3D123")).calls = [req] ∧
      ParseQuery req.URL.RawQuery
        = ([("client_id".toList, ["Iv1.abc".toList]),
            ("client_secret".toList, ["s3cret".toList]),
            ("code".toList, ["abc=123".toList])], none) :=
  oauthHandler_plain_values_parse_back
    { githubClientSecret := "s3cret".toList, githubClientID := "Iv1.abc".toList }
    (exampleEnv 200 "ok" false) (exampleRequest "code=abc%3D123") (by decide)
    (show ∀ c ∈ _, _ from by decide) (show ∀ c ∈ _, _ from by decide)
    (show ∀ c ∈ _, _ from by decide)

/-- C10, evaluated at a failing input: for the request `code=%0A` the decoded code is a line
feed, `http.NewRequest` returns `(nil, err)`, and `oauthHandler` panics on `req.Header.Set` instead
of returning: it writes no status itself and makes no outbound call. -/
theorem oauthHandler_panics_on_control_byte :
    (exampleRequest "code=%0A").URL.Query.Get "code".toList = [Char.ofNat 10] ∧
    NewRequest MethodPost (Sprintf
        "https://github.com/login/oauth/access_token?client_id=%s&client_secret=%s&code=%s".toList
        [[], [], [Char.ofNat 10]]) none = (none, some .invalidControlCharacter) ∧
    (oauthHandler {} unreachableEnv (exampleRequest "code=%0A")).panicked = true ∧
    (oauthHandler {} unreachableEnv (exampleRequest "code=%0A")).w.wroteHeader = false ∧
    (oauthHandler {} unreachableEnv (exampleRequest "code=%0A")).calls = [] := by
  decide

end Proxy
